import Mathlib

/-!
Shallow embedding of the EVM execution adapter core of the Hardhat network
provider: the `EthereumJSAdapter` (interpreted backend) and the
`RethnetAdapter` (native backend), both implementing the `VMAdapter`
interface of `vm-adapter.ts`.

Modelling conventions:
- Machine integers (`bigint`, `number`) are `Nat`; byte buffers are `List Nat`.
- The state manager's Merkle root is deterministic and injective in the
  committed account/storage/code maps, so a state root is modelled as the
  world state itself; `setStateRoot r` jumps the working state to `r`.
- Stateful methods are state-passing functions; methods that can `throw`
  return `Except Err`.
- The backend (`this._vm.runTx` resp. the native `guaranteedDryRun`) is a
  function parameter, so theorems quantify over every backend behaviour,
  both returning a result and throwing.
-/

/-- Hardfork names, in activation order (the order `hardforkGteHardfork`
and `hardforkGte` compare by). -/
inductive Hardfork
  | chainstart
  | homestead
  | tangerineWhistle
  | spuriousDragon
  | byzantium
  | constantinople
  | petersburg
  | istanbul
  | muirGlacier
  | berlin
  | london
  | arrowGlacier
  | grayGlacier
  | merge
  | shanghai
deriving DecidableEq

/-- Position of a hardfork in the activation order. -/
def Hardfork.idx : Hardfork → Nat
  | .chainstart => 0
  | .homestead => 1
  | .tangerineWhistle => 2
  | .spuriousDragon => 3
  | .byzantium => 4
  | .constantinople => 5
  | .petersburg => 6
  | .istanbul => 7
  | .muirGlacier => 8
  | .berlin => 9
  | .london => 10
  | .arrowGlacier => 11
  | .grayGlacier => 12
  | .merge => 13
  | .shanghai => 14

/-- Comparison of hardforks: `hardforkGte a b` holds when `a` is at or
after `b` (`hardforkGte` of `util/hardforks`, `Common.hardforkGteHardfork`). -/
def hardforkGte (a b : Hardfork) : Bool :=
  b.idx ≤ a.idx

/-- Account address (20 bytes, modelled as a number). -/
abbrev Addr := Nat

/-- Byte string. -/
abbrev Bytes := List Nat

/-- Typed transactions are opaque to the adapter code modelled here: the
adapters hand them to the backend unchanged. -/
abbrev Tx := Nat

/-- Account record of the state manager. -/
structure Account where
  nonce : Nat
  balance : Nat
  codeHash : Nat
  storageRoot : Nat
deriving DecidableEq

/-- Fresh empty account: what `StateManager.getAccount` returns for an
address with no account yet. -/
def Account.empty : Account :=
  { nonce := 0, balance := 0, codeHash := 0, storageRoot := 0 }

/-- Committed world state of the state manager: accounts, contract code
and storage slots.  Also plays the role of the state root (the root is a
deterministic injective hash of exactly this data). -/
structure WorldState where
  accounts : List (Addr × Account)
  code : List (Addr × Bytes)
  storage : List (Addr × Nat × Nat)
deriving DecidableEq

/-- `StateManager.getAccount`: the account at an address, or an empty
account when none exists. -/
def WorldState.getAccount (w : WorldState) (address : Addr) : Account :=
  match w.accounts.find? (fun p => p.1 == address) with
  | some p => p.2
  | none => Account.empty

/-- `StateManager.putAccount`: store an account record at an address. -/
def WorldState.putAccount (w : WorldState) (address : Addr) (account : Account) : WorldState :=
  { w with accounts := (address, account) :: w.accounts }

/-- `StateManager.getContractCode`: code at an address, empty when none. -/
def WorldState.getContractCode (w : WorldState) (address : Addr) : Bytes :=
  match w.code.find? (fun p => p.1 == address) with
  | some p => p.2
  | none => []

/-- `StateManager.getContractStorage`: the value of a storage slot, zero
when the slot was never written. -/
def WorldState.getContractStorage (w : WorldState) (address : Addr) (key : Nat) : Nat :=
  match w.storage.find? (fun p => p.1 == address && p.2.1 == key) with
  | some p => p.2.2
  | none => 0

/-- Chain configuration (`Common`): chainId, networkId and the active
hardfork, the fields `dryRun` replaces and restores. -/
structure CommonCfg where
  chainId : Nat
  networkId : Nat
  hardfork : Hardfork
deriving DecidableEq

/-- Block header fields read by the adapters. -/
structure BlockHeader where
  number : Nat
  coinbase : Addr
  timestamp : Nat
  gasLimit : Nat
  gasUsed : Nat
  difficulty : Option Nat
  mixHash : Option Nat
  baseFeePerGas : Option Nat
deriving DecidableEq

/-- Backend error symbols (`ERROR` of ethereumjs-evm exceptions); the
adapter only ever branches on `revert`. -/
inductive EvmErrorKind
  | revert
  | outOfGas
  | invalidOpcode
  | stackUnderflow
  | stackOverflow
  | invalidJump
  | other
deriving DecidableEq

/-- Exception attached to a failed execution result
(`execResult.exceptionError`). -/
structure EvmError where
  error : EvmErrorKind
deriving DecidableEq

/-- Execution result of one message frame
(`ethereumJSResult.execResult`). -/
structure ExecResult where
  exceptionError : Option EvmError
  executionGasUsed : Nat
  returnValue : Bytes
  selfdestruct : Option (List Addr)
  gasRefund : Option Nat
  logs : Option (List (Addr × List Nat × Bytes))
deriving DecidableEq

/-- Top-level EVM result delivered to the afterMessage handler
(`EVMResult`). -/
structure EVMResult where
  execResult : ExecResult
  createdAddress : Option Addr
deriving DecidableEq

/-- Result of `this._vm.runTx` (the fields the adapter reads). -/
structure VmTxResult where
  bloomBitvector : Nat
  totalGasSpent : Nat
  receipt : Nat
  execResult : ExecResult
  createdAddress : Option Addr
deriving DecidableEq

/-- Normalized `RunTxResult` of `vm-adapter.ts`.  The `exit` field is
`Exit.fromEthereumJSEvmError(exceptionError)`; the `Exit` class lives in
`exit.ts` (not part of the sources in scope), so the model carries the
error the `Exit` is built from. -/
structure RunTxResult where
  bloom : Nat
  gasUsed : Nat
  receipt : Nat
  returnValue : Bytes
  createdAddress : Option Addr
  exitError : Option EvmError
deriving DecidableEq

/-- Construction of the normalized result from a backend result, as done
identically in `EthereumJSAdapter.dryRun` and
`EthereumJSAdapter.runTxInBlock`. -/
def mkRunTxResult (r : VmTxResult) : RunTxResult :=
  { bloom := r.bloomBitvector
    gasUsed := r.totalGasSpent
    receipt := r.receipt
    returnValue := r.execResult.returnValue
    createdAddress := r.createdAddress
    exitError := r.execResult.exceptionError }

/-- Errors thrown by the adapters (and infrastructure errors of the
backend, carried by `backendErr`). -/
inductive Err
  | blockAlreadyStarted
  | blockNotStarted
  | mixHashRequired
  | backendErr (code : Nat)
deriving DecidableEq

/-- Behaviour of `this._vm.runTx`: from the current world state, chain
configuration and block, either a result or a thrown error, together with
the world state the backend leaves behind. -/
abbrev Backend :=
  WorldState → CommonCfg → BlockHeader → Tx → Except Err VmTxResult × WorldState

/-- State of an `EthereumJSAdapter`: the state manager's committed world,
the VM's `_common` (replaced and restored by `dryRun`), the construction
parameters, and the `_blockStartStateRoot` marker. -/
structure EJSAdapter where
  world : WorldState
  common : CommonCfg
  configNetworkId : Nat
  configChainId : Nat
  forkNetworkId : Option Nat
  forkBlockNumber : Option Nat
  blockStartStateRoot : Option WorldState
deriving DecidableEq

/-- `EthereumJSAdapter.getStateRoot`: the root over the committed world
state (modelled as the world state itself). -/
def EJSAdapter.getStateRoot (s : EJSAdapter) : WorldState :=
  s.world

/-- `EthereumJSAdapter._isEip1559Active`: London is active for a given
block number, or for the adapter's current hardfork when the argument is
`undefined` or the string `pending` (both collapsed to `none`). -/
def EJSAdapter.isEip1559Active (hf : Nat → Hardfork) (s : EJSAdapter)
    (blockNumberOrPending : Option Nat) : Bool :=
  match blockNumberOrPending with
  | some blockNumber => hardforkGte (hf blockNumber) .london
  | none => hardforkGte s.common.hardfork .london

/-- Block substitution step of `EthereumJSAdapter.dryRun`: when EIP-1559
is active for the block's number and the block has no basefee or
`forceBaseFeeZero` is set, a copy of the block with `baseFeePerGas = 0`
is used; otherwise the block is used unchanged. -/
def EJSAdapter.dryRunEffectiveBlock (hf : Nat → Hardfork) (s : EJSAdapter)
    (blockContext : BlockHeader) (forceBaseFeeZero : Bool) : BlockHeader :=
  if s.isEip1559Active hf (some blockContext.number)
      && (blockContext.baseFeePerGas.isNone || forceBaseFeeZero) then
    { blockContext with baseFeePerGas := some 0 }
  else
    blockContext

/-- Custom chain configuration installed by `EthereumJSAdapter.dryRun`:
`Common.custom` over a chainId and networkId computed from the fork
parameters and the block number, with the hardfork selected for that
number.  When `forkBlockNumber` is set but `forkNetworkId` is not the
source would read an `undefined` chainId; `create` always sets the two
together, and `0` encodes that unreachable value. -/
def EJSAdapter.dryRunCommon (hf : Nat → Hardfork) (s : EJSAdapter)
    (blockNumber : Nat) : CommonCfg :=
  { chainId :=
      match s.forkBlockNumber with
      | none => s.configChainId
      | some fbn => if fbn ≤ blockNumber then s.configChainId else s.forkNetworkId.getD 0
    networkId := s.forkNetworkId.getD s.configNetworkId
    hardfork := hf blockNumber }

/-- `EthereumJSAdapter.dryRun`: snapshot the state root, substitute the
block's basefee when needed, install the custom chain configuration, run
the transaction with the backend, and in the `finally` block restore the
original configuration and state root on both the success and the throw
path. -/
def EJSAdapter.dryRun (hf : Nat → Hardfork) (runTx : Backend) (s : EJSAdapter)
    (tx : Tx) (blockContext : BlockHeader) (forceBaseFeeZero : Bool) :
    Except Err RunTxResult × EJSAdapter :=
  let initialStateRoot := s.getStateRoot
  let effBlock := s.dryRunEffectiveBlock hf blockContext forceBaseFeeZero
  let originalCommon := s.common
  let s1 : EJSAdapter := { s with common := s.dryRunCommon hf effBlock.number }
  match runTx s1.world s1.common effBlock tx with
  | (res, w) =>
    let s2 : EJSAdapter := { s1 with world := w }
    let s3 : EJSAdapter := { s2 with common := originalCommon }
    let s4 : EJSAdapter := { s3 with world := initialStateRoot }
    (res.map mkRunTxResult, s4)

/-- `EthereumJSAdapter.startBlock`: throws when a block is already
started, otherwise records the current state root in
`_blockStartStateRoot`. -/
def EJSAdapter.startBlock (s : EJSAdapter) : Except Err EJSAdapter :=
  match s.blockStartStateRoot with
  | some _ => .error .blockAlreadyStarted
  | none => .ok { s with blockStartStateRoot := some s.getStateRoot }

/-- `EthereumJSAdapter.runTxInBlock`: runs the transaction with the
backend and normalizes the result.  The source performs no lifecycle
check here. -/
def EJSAdapter.runTxInBlock (runTx : Backend) (s : EJSAdapter) (tx : Tx)
    (block : BlockHeader) : Except Err RunTxResult × EJSAdapter :=
  match runTx s.world s.common block tx with
  | (res, w) => (res.map mkRunTxResult, { s with world := w })

/-- Reward loop of `EthereumJSAdapter.addBlockRewards`: for each pair,
read the account (an empty account when absent), add the reward to its
balance and store it back. -/
def applyRewards (w : WorldState) : List (Addr × Nat) → WorldState
  | [] => w
  | (address, reward) :: rest =>
    let account := w.getAccount address
    applyRewards
      (w.putAccount address { account with balance := account.balance + reward })
      rest

/-- `EthereumJSAdapter.addBlockRewards`. -/
def EJSAdapter.addBlockRewards (s : EJSAdapter) (rewards : List (Addr × Nat)) :
    EJSAdapter :=
  { s with world := applyRewards s.world rewards }

/-- `EthereumJSAdapter.sealBlock`: throws when no block was started,
otherwise only clears `_blockStartStateRoot`. -/
def EJSAdapter.sealBlock (s : EJSAdapter) : Except Err EJSAdapter :=
  match s.blockStartStateRoot with
  | none => .error .blockNotStarted
  | some _ => .ok { s with blockStartStateRoot := none }

/-- `EthereumJSAdapter.revertBlock`: throws when no block was started,
otherwise restores the state root captured by `startBlock` and clears the
marker. -/
def EJSAdapter.revertBlock (s : EJSAdapter) : Except Err EJSAdapter :=
  match s.blockStartStateRoot with
  | none => .error .blockNotStarted
  | some root =>
    .ok { s with world := root, blockStartStateRoot := none }

/-- Sequence of `runTxInBlock` calls, each with its own backend behaviour
and transaction. -/
def EJSAdapter.runTxsInBlock (block : BlockHeader) :
    List (Backend × Tx) → EJSAdapter → EJSAdapter
  | [], s => s
  | (runTx, tx) :: rest, s =>
    EJSAdapter.runTxsInBlock block rest (s.runTxInBlock runTx tx block).2

/-- Success reasons of the exit taxonomy (`SuccessReason` of rethnet-evm,
assigned in `EthereumJSAdapter._afterMessageHandler`). -/
inductive SuccessReason
  | Stop
  | Return
  | SelfDestruct
deriving DecidableEq

/-- Output shape of a successful frame: a call output carries the return
value, a create output also carries the created address. -/
inductive FrameOutput
  | call (returnValue : Bytes)
  | create (address : Addr) (returnValue : Bytes)
deriving DecidableEq

/-- Normalized execution result built by
`EthereumJSAdapter._afterMessageHandler`: success with a reason, revert
with the return value, or an exceptional halt.  The halt constructor
carries the backend error the halt reason is derived from
(`Exit.fromEthereumJSEvmError(...).getRethnetExceptionalHalt()`; the
`Exit` class lives in `exit.ts`, outside the sources in scope). -/
inductive MappedExecutionResult
  | success (reason : SuccessReason) (gasUsed : Nat) (gasRefunded : Nat)
      (logs : List (Addr × List Nat × Bytes)) (output : FrameOutput)
  | reverted (gasUsed : Nat) (output : Bytes)
  | halted (error : EvmError) (gasUsed : Nat)
deriving DecidableEq

/-- Result mapping of `EthereumJSAdapter._afterMessageHandler`: with no
exception the success reason is SelfDestruct when the frame
self-destructed at least one account, else Return when a created address
exists or the return value is non-empty, else Stop; a revert error maps
to the revert case; any other error maps to an exceptional halt. -/
def afterMessageExecutionResult (result : EVMResult) : MappedExecutionResult :=
  let gasUsed := result.execResult.executionGasUsed
  match result.execResult.exceptionError with
  | none =>
    let reason :=
      if (match result.execResult.selfdestruct with
          | some keys => decide (keys.length > 0)
          | none => false) then
        SuccessReason.SelfDestruct
      else if result.createdAddress.isSome
          || decide (result.execResult.returnValue.length > 0) then
        SuccessReason.Return
      else
        SuccessReason.Stop
    .success reason gasUsed (result.execResult.gasRefund.getD 0)
      (result.execResult.logs.getD [])
      (match result.createdAddress with
       | none => .call result.execResult.returnValue
       | some address => .create address result.execResult.returnValue)
  | some err =>
    if err.error = .revert then
      .reverted gasUsed result.execResult.returnValue
    else
      .halted err gasUsed

/-- Reason of the success case of a mapped result, when it is one. -/
def MappedExecutionResult.successReason : MappedExecutionResult → Option SuccessReason
  | .success reason _ _ _ _ => some reason
  | _ => none

/-- Block environment handed to the native backend
(`guaranteedDryRun` / `run` of rethnet-evm). -/
structure RethnetBlockEnv where
  number : Nat
  coinbase : Addr
  timestamp : Nat
  gasLimit : Nat
  basefee : Option Nat
  difficulty : Option Nat
  prevrandao : Option Nat
deriving DecidableEq

/-- `RethnetAdapter._getBlockEnvDifficulty`: clamp a difficulty above
`2^32 - 1` to that bound, pass anything else through. -/
def RethnetAdapter.getBlockEnvDifficulty (difficulty : Option Nat) : Option Nat :=
  match difficulty with
  | some d => if d > 2 ^ 32 - 1 then some (2 ^ 32 - 1) else some d
  | none => none

/-- `RethnetAdapter._getBlockPrevRandao`: at or after the Merge the
mixHash is required and returned as prevRandao; before the Merge the
result is absent regardless of mixHash. -/
def RethnetAdapter.getBlockPrevRandao (hf : Nat → Hardfork) (blockNumber : Nat)
    (mixHash : Option Nat) : Except Err (Option Nat) :=
  if hardforkGte (hf blockNumber) .merge then
    match mixHash with
    | none => .error .mixHashRequired
    | some h => .ok (some h)
  else
    .ok none

/-- Block environment built by `RethnetAdapter.dryRun` for the native
backend: the basefee is `0` exactly when `forceBaseFeeZero` is set,
otherwise the block's own (possibly absent) `baseFeePerGas`. -/
def RethnetAdapter.dryRunBlockEnv (hf : Nat → Hardfork)
    (blockContext : BlockHeader) (forceBaseFeeZero : Bool) :
    Except Err RethnetBlockEnv :=
  let difficulty := RethnetAdapter.getBlockEnvDifficulty blockContext.difficulty
  match RethnetAdapter.getBlockPrevRandao hf blockContext.number blockContext.mixHash with
  | .error e => .error e
  | .ok prevRandao =>
    .ok
      { number := blockContext.number
        coinbase := blockContext.coinbase
        timestamp := blockContext.timestamp
        gasLimit := blockContext.gasLimit
        basefee := if forceBaseFeeZero then some 0 else blockContext.baseFeePerGas
        difficulty := difficulty
        prevrandao := prevRandao }

/-- State of a `RethnetAdapter`: the native state manager's world and its
checkpoint stack. -/
structure RethnetState where
  world : WorldState
  checkpoints : List WorldState
deriving DecidableEq

/-- Modelled from the spec: `RethnetStateManager.checkpoint` (the
`RethnetState` wrapper over the native state is not among the sources in
scope) pushes a savepoint of the current state, per the state-journal
contract of the spec. -/
def RethnetState.checkpoint (s : RethnetState) : RethnetState :=
  { s with checkpoints := s.world :: s.checkpoints }

/-- `RethnetAdapter.getStateRoot`. -/
def RethnetAdapter.getStateRoot (s : RethnetState) : WorldState :=
  s.world

/-- `RethnetAdapter.dryRun`: builds the block environment (raising on a
missing post-Merge mixHash) and delegates to the native
`guaranteedDryRun`, which by its contract executes without modifying the
state (hence a backend function with no resulting world state).  The
result conversion (`rethnetResultToRunTxResult`, outside the sources in
scope) is dropped; nothing modelled reads the result's fields. -/
def RethnetAdapter.dryRun (hf : Nat → Hardfork)
    (guaranteedDryRun : WorldState → RethnetBlockEnv → Tx → Except Err VmTxResult)
    (s : RethnetState) (tx : Tx) (blockContext : BlockHeader)
    (forceBaseFeeZero : Bool) : Except Err VmTxResult × RethnetState :=
  match RethnetAdapter.dryRunBlockEnv hf blockContext forceBaseFeeZero with
  | .error e => (.error e, s)
  | .ok env =>
    match guaranteedDryRun s.world env tx with
    | .error e => (.error e, s)
    | .ok r => (.ok r, s)

/-- `RethnetAdapter.startBlock`: checkpoints unconditionally, with no
check that a block is already open. -/
def RethnetAdapter.startBlock (s : RethnetState) : Except Err RethnetState :=
  .ok s.checkpoint

/-- Block environment built by `RethnetAdapter.runTxInBlock` for the
native backend's `run`: the header data with the clamped difficulty and
the prevRandao mapping, which raises on a missing post-Merge mixHash
(`ethereumjsHeaderDataToRethnet` itself, outside the sources in scope,
carries the header's fields unchanged). -/
def RethnetAdapter.runBlockEnv (hf : Nat → Hardfork) (block : BlockHeader) :
    Except Err RethnetBlockEnv :=
  let difficulty := RethnetAdapter.getBlockEnvDifficulty block.difficulty
  match RethnetAdapter.getBlockPrevRandao hf block.number block.mixHash with
  | .error e => .error e
  | .ok prevRandao =>
    .ok
      { number := block.number
        coinbase := block.coinbase
        timestamp := block.timestamp
        gasLimit := block.gasLimit
        basefee := block.baseFeePerGas
        difficulty := difficulty
        prevrandao := prevRandao }

/-- `RethnetAdapter.runTxInBlock`: builds the block environment and runs
the transaction with the native backend's `run`, which executes against
the current state and may mutate it.  The source performs no lifecycle
check: nothing here consults the checkpoint stack. -/
def RethnetAdapter.runTxInBlock (hf : Nat → Hardfork)
    (run : WorldState → RethnetBlockEnv → Tx → Except Err VmTxResult × WorldState)
    (s : RethnetState) (tx : Tx) (block : BlockHeader) :
    Except Err VmTxResult × RethnetState :=
  match RethnetAdapter.runBlockEnv hf block with
  | .error e => (.error e, s)
  | .ok env =>
    match run s.world env tx with
    | (res, w) => (res, { s with world := w })

/-- `RethnetAdapter.sealBlock`: a no-op in the source, with no check that
a block was started. -/
def RethnetAdapter.sealBlock (s : RethnetState) : Except Err RethnetState :=
  .ok s

/-- Modelled from the spec: the reward application of
`BlockBuilder.finalize` of rethnet-evm (native code, not among the
sources in scope) credits each (address, reward) pair to the account's
balance, creating the account when it does not yet exist, per the spec's
create-on-credit contract for rewards. -/
def blockBuilderFinalize (w : WorldState) (rewards : List (Addr × Nat)) : WorldState :=
  applyRewards w rewards

/-- `RethnetAdapter.addBlockRewards`: delegates the credit loop to the
block builder's finalize. -/
def RethnetAdapter.addBlockRewards (s : RethnetState)
    (rewards : List (Addr × Nat)) : RethnetState :=
  { s with world := blockBuilderFinalize s.world rewards }

/-- `RethnetAdapter.isWarmedAddress`: the source ignores its address
argument and the adapter state and returns `true`. -/
def RethnetAdapter.isWarmedAddress (_s : RethnetState) (_address : Addr) : Bool :=
  true

/-- Sum of the rewards a given address receives in a rewards list. -/
def sumRewardsTo (address : Addr) : List (Addr × Nat) → Nat
  | [] => 0
  | (a, reward) :: rest =>
    (if a == address then reward else 0) + sumRewardsTo address rest

/-- Concrete test fixtures used by witnesses: an execution result, a
backend result, a world with one funded account, a chain configuration
and an adapter state. -/
def execResultA : ExecResult :=
  { exceptionError := none
    executionGasUsed := 21000
    returnValue := []
    selfdestruct := none
    gasRefund := none
    logs := none }

/-- Backend result fixture. -/
def vmTxResultA : VmTxResult :=
  { bloomBitvector := 0
    totalGasSpent := 21000
    receipt := 0
    execResult := execResultA
    createdAddress := none }

/-- World-state fixture: address 1 holds balance 100. -/
def wsA : WorldState :=
  { accounts := [(1, { nonce := 0, balance := 100, codeHash := 0, storageRoot := 0 })]
    code := []
    storage := [] }

/-- Chain-configuration fixture. -/
def commonA : CommonCfg :=
  { chainId := 31337, networkId := 31337, hardfork := .london }

/-- Adapter fixture without a started block. -/
def adapterA : EJSAdapter :=
  { world := wsA
    common := commonA
    configNetworkId := 31337
    configChainId := 31337
    forkNetworkId := none
    forkBlockNumber := none
    blockStartStateRoot := none }

/-- Block-header fixture. -/
def headerA : BlockHeader :=
  { number := 1
    coinbase := 2
    timestamp := 0
    gasLimit := 30000000
    gasUsed := 0
    difficulty := some 0
    mixHash := some 3
    baseFeePerGas := some 7 }

/-- Backend fixture that succeeds and writes a fresh account. -/
def writingBackend : Backend := fun w _ _ _ =>
  (.ok vmTxResultA, w.putAccount 9 { Account.empty with balance := 5 })

/-- Backend fixture that succeeds and leaves the state unchanged. -/
def okBackend : Backend := fun w _ _ _ =>
  (.ok vmTxResultA, w)

/-- Native-backend fixture for `RethnetAdapter.runTxInBlock` that
succeeds and leaves the state unchanged. -/
def rethnetOkRun :
    WorldState → RethnetBlockEnv → Tx → Except Err VmTxResult × WorldState :=
  fun w _ _ => (.ok vmTxResultA, w)

/-- Block-environment fixture: what `RethnetAdapter.runBlockEnv` builds
from `headerA` under an always-London (pre-Merge) selector. -/
def envA : RethnetBlockEnv :=
  { number := 1
    coinbase := 2
    timestamp := 0
    gasLimit := 30000000
    basefee := some 7
    difficulty := some 0
    prevrandao := none }

theorem EJSAdapter.runTxsInBlock_blockStartStateRoot (block : BlockHeader) :
    ∀ (steps : List (Backend × Tx)) (s : EJSAdapter),
      (EJSAdapter.runTxsInBlock block steps s).blockStartStateRoot
        = s.blockStartStateRoot := by
  intro steps
  induction steps with
  | nil => intro s; rfl
  | cons p rest ih =>
    intro s
    obtain ⟨runTx, tx⟩ := p
    rw [EJSAdapter.runTxsInBlock, ih]
    rfl

/-- Claim C1: for every transaction, block context and backend behaviour,
`dryRun` leaves the state root returned by `getStateRoot` unchanged and
restores the prior chain configuration, on both the success and the
throw path of the backend call (the backend `runTx` is universally
quantified, covering both); the native adapter's `dryRun` likewise
leaves its state untouched. -/
theorem dryRun_preserves_stateRoot (hf : Nat → Hardfork) (runTx : Backend)
    (guaranteedDryRun : WorldState → RethnetBlockEnv → Tx → Except Err VmTxResult)
    (s : EJSAdapter) (rs : RethnetState) (tx : Tx) (blockContext : BlockHeader)
    (forceBaseFeeZero : Bool) :
    (EJSAdapter.dryRun hf runTx s tx blockContext forceBaseFeeZero).2.getStateRoot
        = s.getStateRoot
      ∧ (EJSAdapter.dryRun hf runTx s tx blockContext forceBaseFeeZero).2.common
        = s.common
      ∧ RethnetAdapter.getStateRoot (RethnetAdapter.dryRun hf guaranteedDryRun rs tx
          blockContext forceBaseFeeZero).2 = RethnetAdapter.getStateRoot rs := by
  refine ⟨rfl, rfl, ?_⟩
  cases henv : RethnetAdapter.dryRunBlockEnv hf blockContext forceBaseFeeZero with
  | error e => simp [RethnetAdapter.dryRun, henv]
  | ok env =>
    cases hrun : guaranteedDryRun rs.world env tx with
    | error e => simp [RethnetAdapter.dryRun, henv, hrun]
    | ok r => simp [RethnetAdapter.dryRun, henv, hrun]

/-- Claim C3: after `startBlock`, any sequence of `runTxInBlock` calls
(each with its own backend behaviour, possibly writing state) followed by
`revertBlock` leaves `getStateRoot` equal to its value immediately before
`startBlock`. -/
theorem revertBlock_restores_stateRoot (s : EJSAdapter)
    (h : s.blockStartStateRoot = none) (block : BlockHeader)
    (steps : List (Backend × Tx)) :
    ∃ s1, s.startBlock = .ok s1 ∧
      ∃ s3, (EJSAdapter.runTxsInBlock block steps s1).revertBlock = .ok s3 ∧
        s3.getStateRoot = s.getStateRoot := by
  refine ⟨{ s with blockStartStateRoot := some s.getStateRoot }, ?_, ?_⟩
  · rw [EJSAdapter.startBlock, h]
  · have hmark := EJSAdapter.runTxsInBlock_blockStartStateRoot block steps
      { s with blockStartStateRoot := some s.getStateRoot }
    refine ⟨{ EJSAdapter.runTxsInBlock block steps
        { s with blockStartStateRoot := some s.getStateRoot } with
          world := s.getStateRoot, blockStartStateRoot := none }, ?_, rfl⟩
    rw [EJSAdapter.revertBlock, hmark]

/-- Witness for C3 at a concrete adapter, block and two state-writing
transactions. -/
theorem revertBlock_restores_stateRoot_witness :
    adapterA.blockStartStateRoot = none ∧
    (∃ s1, adapterA.startBlock = .ok s1 ∧
      ∃ s3, (EJSAdapter.runTxsInBlock headerA
          [(writingBackend, 0), (writingBackend, 1)] s1).revertBlock = .ok s3 ∧
        s3.getStateRoot = adapterA.getStateRoot) :=
  ⟨rfl, revertBlock_restores_stateRoot adapterA rfl headerA
    [(writingBackend, 0), (writingBackend, 1)]⟩

/-- Claim C10: `sealBlock` on an open block only clears the block-start
marker: the state root and every account, storage slot and code entry are
unchanged; and after `startBlock` followed by any `runTxInBlock` sequence,
`sealBlock` succeeds and leaves the world exactly as the transactions
left it, with no separate commit step. -/
theorem sealBlock_only_clears_marker :
    (∀ (s : EJSAdapter) (root : WorldState), s.blockStartStateRoot = some root →
      s.sealBlock = .ok { s with blockStartStateRoot := none } ∧
      ∀ s2, s.sealBlock = .ok s2 →
        s2.getStateRoot = s.getStateRoot ∧
        (∀ a, s2.world.getAccount a = s.world.getAccount a) ∧
        (∀ a k, s2.world.getContractStorage a k = s.world.getContractStorage a k) ∧
        (∀ a, s2.world.getContractCode a = s.world.getContractCode a)) ∧
    (∀ (s s1 : EJSAdapter), s.startBlock = .ok s1 →
      ∀ (block : BlockHeader) (steps : List (Backend × Tx)),
        ∃ s2, (EJSAdapter.runTxsInBlock block steps s1).sealBlock = .ok s2 ∧
          s2.world = (EJSAdapter.runTxsInBlock block steps s1).world) := by
  constructor
  · intro s root h
    have hseal : s.sealBlock = .ok { s with blockStartStateRoot := none } := by
      rw [EJSAdapter.sealBlock, h]
    refine ⟨hseal, ?_⟩
    intro s2 h2
    rw [hseal] at h2
    cases h2
    exact ⟨rfl, fun a => rfl, fun a k => rfl, fun a => rfl⟩
  · intro s s1 hstart block steps
    have h1 : s1.blockStartStateRoot = some s.getStateRoot := by
      rw [EJSAdapter.startBlock] at hstart
      cases hmark : s.blockStartStateRoot with
      | some root => rw [hmark] at hstart; cases hstart
      | none => rw [hmark] at hstart; cases hstart; rfl
    have hmark := EJSAdapter.runTxsInBlock_blockStartStateRoot block steps s1
    rw [h1] at hmark
    refine ⟨{ EJSAdapter.runTxsInBlock block steps s1 with blockStartStateRoot := none },
      ?_, rfl⟩
    rw [EJSAdapter.sealBlock, hmark]

/-- Witness for C10: a concrete adapter with an open block, and a
concrete start-run-seal sequence. -/
theorem sealBlock_only_clears_marker_witness :
    ({ adapterA with blockStartStateRoot := some wsA } : EJSAdapter).sealBlock
        = .ok adapterA ∧
    (∃ s2, (EJSAdapter.runTxsInBlock headerA [(writingBackend, 0)]
        { adapterA with blockStartStateRoot := some wsA }).sealBlock = .ok s2 ∧
      s2.world = (EJSAdapter.runTxsInBlock headerA [(writingBackend, 0)]
        { adapterA with blockStartStateRoot := some wsA }).world) :=
  ⟨(sealBlock_only_clears_marker.1 { adapterA with blockStartStateRoot := some wsA }
      wsA rfl).1,
    sealBlock_only_clears_marker.2 adapterA
      { adapterA with blockStartStateRoot := some wsA } rfl headerA
      [(writingBackend, 0)]⟩

/-- Counterexample for C2: `EthereumJSAdapter.runTxInBlock` with no block
started does not raise any error — it silently executes the transaction
and returns a normal result; `RethnetAdapter.runTxInBlock` with an empty
checkpoint stack likewise executes and succeeds; `RethnetAdapter.startBlock`
succeeds even when a checkpoint is already open; and
`RethnetAdapter.sealBlock` succeeds with no block started. -/
theorem runTxInBlock_without_startBlock_succeeds :
    adapterA.blockStartStateRoot = none ∧
    (EJSAdapter.runTxInBlock okBackend adapterA 0 headerA).1
      = .ok (mkRunTxResult vmTxResultA) ∧
    (RethnetAdapter.runTxInBlock (fun _ => .london) rethnetOkRun
        { world := wsA, checkpoints := [] } 0 headerA).1 = .ok vmTxResultA ∧
    RethnetAdapter.startBlock { world := wsA, checkpoints := [wsA] }
      = .ok { world := wsA, checkpoints := [wsA, wsA] } ∧
    RethnetAdapter.sealBlock { world := wsA, checkpoints := [] }
      = .ok { world := wsA, checkpoints := [] } :=
  ⟨rfl, rfl, rfl, rfl, rfl⟩

/-- Claim C2 (amended): in the `EthereumJSAdapter`, `startBlock` with a
block already open and `sealBlock` or `revertBlock` with no block started
raise the lifecycle error, while `runTxInBlock` performs no lifecycle
check and executes the transaction regardless of the marker; the
`RethnetAdapter` performs none of the three checks — its `startBlock`
checkpoints unconditionally, its `sealBlock` is a no-op, and its
`runTxInBlock` never consults the checkpoint stack: its result is the
same for every stack, and whenever the block environment builds it is
exactly the backend's result, block started or not. -/
theorem blockLifecycle_checks :
    (∀ s : EJSAdapter,
      (∀ root, s.blockStartStateRoot = some root →
        s.startBlock = .error .blockAlreadyStarted) ∧
      (s.blockStartStateRoot = none →
        s.startBlock = .ok { s with blockStartStateRoot := some s.getStateRoot }) ∧
      (s.blockStartStateRoot = none → s.sealBlock = .error .blockNotStarted) ∧
      (s.blockStartStateRoot = none → s.revertBlock = .error .blockNotStarted) ∧
      (∀ (runTx : Backend) (tx : Tx) (block : BlockHeader),
        (EJSAdapter.runTxInBlock runTx s tx block).1
          = (runTx s.world s.common block tx).1.map mkRunTxResult)) ∧
    (∀ rs : RethnetState,
      RethnetAdapter.startBlock rs = .ok rs.checkpoint ∧
      RethnetAdapter.sealBlock rs = .ok rs) ∧
    (∀ (hf : Nat → Hardfork)
      (run : WorldState → RethnetBlockEnv → Tx → Except Err VmTxResult × WorldState)
      (rs : RethnetState) (tx : Tx) (block : BlockHeader),
      (∀ cps, (RethnetAdapter.runTxInBlock hf run rs tx block).1
        = (RethnetAdapter.runTxInBlock hf run { rs with checkpoints := cps }
            tx block).1) ∧
      (∀ env, RethnetAdapter.runBlockEnv hf block = .ok env →
        (RethnetAdapter.runTxInBlock hf run rs tx block).1
          = (run rs.world env tx).1)) := by
  refine ⟨?_, ?_, ?_⟩
  · intro s
    refine ⟨?_, ?_, ?_, ?_, ?_⟩
    · intro root h; rw [EJSAdapter.startBlock, h]
    · intro h; rw [EJSAdapter.startBlock, h]
    · intro h; rw [EJSAdapter.sealBlock, h]
    · intro h; rw [EJSAdapter.revertBlock, h]
    · intro runTx tx block; rfl
  · intro rs; exact ⟨rfl, rfl⟩
  · intro hf run rs tx block
    constructor
    · intro cps
      cases henv : RethnetAdapter.runBlockEnv hf block with
      | error e => simp [RethnetAdapter.runTxInBlock, henv]
      | ok env => simp [RethnetAdapter.runTxInBlock, henv]
    · intro env henv
      simp [RethnetAdapter.runTxInBlock, henv]

/-- Witness for the amended C2 at concrete adapter states on each branch. -/
theorem blockLifecycle_checks_witness :
    ({ adapterA with blockStartStateRoot := some wsA } : EJSAdapter).startBlock
        = .error .blockAlreadyStarted ∧
    adapterA.sealBlock = .error .blockNotStarted ∧
    adapterA.revertBlock = .error .blockNotStarted ∧
    RethnetAdapter.startBlock { world := wsA, checkpoints := [] }
      = .ok (RethnetState.checkpoint { world := wsA, checkpoints := [] }) ∧
    (RethnetAdapter.runTxInBlock (fun _ => .london) rethnetOkRun
        { world := wsA, checkpoints := [] } 0 headerA).1
      = (rethnetOkRun wsA envA 0).1 :=
  ⟨((blockLifecycle_checks.1 { adapterA with blockStartStateRoot := some wsA }).1
      wsA rfl),
    (blockLifecycle_checks.1 adapterA).2.2.1 rfl,
    (blockLifecycle_checks.1 adapterA).2.2.2.1 rfl,
    (blockLifecycle_checks.2.1 { world := wsA, checkpoints := [] }).1,
    (blockLifecycle_checks.2.2 (fun _ => .london) rethnetOkRun
      { world := wsA, checkpoints := [] } 0 headerA).2 envA rfl⟩

/-- Holds when the frame self-destructed at least one account
(`selfdestruct !== undefined` with a non-empty key set). -/
def EVMResult.selfdestructedAtLeastOne (r : EVMResult) : Prop :=
  ∃ keys, r.execResult.selfdestruct = some keys ∧ keys ≠ []

/-- Claim C4: for a backend execution result with no exception error, the
success reason is SelfDestruct when the frame self-destructed at least
one account; otherwise Return when a created-contract address exists or
the return value is non-empty; otherwise Stop. -/
theorem successReason_selection (r : EVMResult)
    (h : r.execResult.exceptionError = none) :
    (r.selfdestructedAtLeastOne →
      (afterMessageExecutionResult r).successReason = some .SelfDestruct) ∧
    (¬ r.selfdestructedAtLeastOne →
      (r.createdAddress ≠ none ∨ r.execResult.returnValue ≠ []) →
      (afterMessageExecutionResult r).successReason = some .Return) ∧
    (¬ r.selfdestructedAtLeastOne → r.createdAddress = none →
      r.execResult.returnValue = [] →
      (afterMessageExecutionResult r).successReason = some .Stop) := by
  have hsd : (match r.execResult.selfdestruct with
      | some keys => decide (keys.length > 0)
      | none => false) = true ↔ r.selfdestructedAtLeastOne := by
    cases hk : r.execResult.selfdestruct with
    | none =>
      simp only [EVMResult.selfdestructedAtLeastOne, hk]
      simp
    | some keys =>
      simp only [EVMResult.selfdestructedAtLeastOne, hk]
      cases keys <;> simp
  refine ⟨?_, ?_, ?_⟩
  · intro hsel
    rw [afterMessageExecutionResult]
    rw [h]
    simp only [MappedExecutionResult.successReason]
    rw [if_pos (hsd.mpr hsel)]
  · intro hnsel hout
    rw [afterMessageExecutionResult]
    rw [h]
    simp only [MappedExecutionResult.successReason]
    rw [if_neg (fun hb => hnsel (hsd.mp hb))]
    have : (r.createdAddress.isSome || decide (r.execResult.returnValue.length > 0))
        = true := by
      rcases hout with hc | hr
      · cases hca : r.createdAddress with
        | none => exact absurd hca hc
        | some a => simp [hca]
      · cases hrv : r.execResult.returnValue with
        | nil => exact absurd hrv hr
        | cons x xs => simp [hrv]
    rw [if_pos this]
  · intro hnsel hca hrv
    rw [afterMessageExecutionResult]
    rw [h]
    simp only [MappedExecutionResult.successReason]
    rw [if_neg (fun hb => hnsel (hsd.mp hb))]
    rw [if_neg (by simp [hca, hrv])]

/-- Witness for C4 covering all three reason branches at concrete
execution results. -/
theorem successReason_selection_witness :
    (afterMessageExecutionResult
        { execResult := { execResultA with selfdestruct := some [4] },
          createdAddress := none }).successReason = some .SelfDestruct ∧
    (afterMessageExecutionResult
        { execResult := { execResultA with returnValue := [1, 2] },
          createdAddress := none }).successReason = some .Return ∧
    (afterMessageExecutionResult
        { execResult := execResultA, createdAddress := none }).successReason
      = some .Stop :=
  ⟨(successReason_selection _ rfl).1 ⟨[4], rfl, by simp⟩,
    (successReason_selection _ rfl).2.1 (by rintro ⟨keys, hk, -⟩; cases hk)
      (Or.inr (by simp [execResultA])),
    (successReason_selection _ rfl).2.2 (by rintro ⟨keys, hk, -⟩; cases hk) rfl rfl⟩

theorem EJSAdapter.dryRunEffectiveBlock_number (hf : Nat → Hardfork)
    (s : EJSAdapter) (blockContext : BlockHeader) (force : Bool) :
    (s.dryRunEffectiveBlock hf blockContext force).number = blockContext.number := by
  rw [EJSAdapter.dryRunEffectiveBlock]
  split <;> rfl

/-- Claim C5: the chain configuration `dryRun` installs is computed from
the block number: the chainId is the configured chainId when the adapter
is not forked or the block number is at or past the fork block and
otherwise the fork network id; the networkId is the fork network id when
forked and otherwise the configured networkId; the hardfork is the one
the injected selector returns for that number; and the backend call
inside `dryRun` receives exactly this configuration. -/
theorem dryRunCommon_selection (hf : Nat → Hardfork) (s : EJSAdapter) (n : Nat) :
    ((s.dryRunCommon hf n).hardfork = hf n) ∧
    (∀ fnid, s.forkNetworkId = some fnid → (s.dryRunCommon hf n).networkId = fnid) ∧
    (s.forkNetworkId = none → (s.dryRunCommon hf n).networkId = s.configNetworkId) ∧
    (s.forkBlockNumber = none → (s.dryRunCommon hf n).chainId = s.configChainId) ∧
    (∀ fbn, s.forkBlockNumber = some fbn → fbn ≤ n →
      (s.dryRunCommon hf n).chainId = s.configChainId) ∧
    (∀ fbn fnid, s.forkBlockNumber = some fbn → n < fbn →
      s.forkNetworkId = some fnid → (s.dryRunCommon hf n).chainId = fnid) ∧
    (∀ (runTx : Backend) (tx : Tx) (blockContext : BlockHeader) (force : Bool),
      (EJSAdapter.dryRun hf runTx s tx blockContext force).1
        = (runTx s.world (s.dryRunCommon hf blockContext.number)
            (s.dryRunEffectiveBlock hf blockContext force) tx).1.map
              mkRunTxResult) := by
  refine ⟨rfl, ?_, ?_, ?_, ?_, ?_, ?_⟩
  · intro fnid h; simp [EJSAdapter.dryRunCommon, h]
  · intro h; simp [EJSAdapter.dryRunCommon, h]
  · intro h; simp [EJSAdapter.dryRunCommon, h]
  · intro fbn h hle; simp [EJSAdapter.dryRunCommon, h, hle]
  · intro fbn fnid hb hlt hn
    simp [EJSAdapter.dryRunCommon, hb, hn, Nat.not_le.mpr hlt]
  · intro runTx tx blockContext force
    rw [← EJSAdapter.dryRunEffectiveBlock_number hf s blockContext force]
    rfl

/-- Witness for C5: a forked adapter before and at the fork block, and a
non-forked adapter. -/
theorem dryRunCommon_selection_witness :
    (EJSAdapter.dryRunCommon (fun _ => .merge)
        { adapterA with forkNetworkId := some 88, forkBlockNumber := some 10 }
        3).chainId = 88 ∧
    (EJSAdapter.dryRunCommon (fun _ => .merge)
        { adapterA with forkNetworkId := some 88, forkBlockNumber := some 10 }
        10).chainId = 31337 ∧
    (EJSAdapter.dryRunCommon (fun _ => .merge)
        { adapterA with forkNetworkId := some 88, forkBlockNumber := some 10 }
        3).networkId = 88 ∧
    (EJSAdapter.dryRunCommon (fun _ => .merge) adapterA 3).chainId = 31337 ∧
    (EJSAdapter.dryRunCommon (fun _ => .merge) adapterA 3).networkId = 31337 ∧
    (EJSAdapter.dryRunCommon (fun _ => .merge) adapterA 3).hardfork = .merge :=
  ⟨(dryRunCommon_selection (fun _ => .merge) _ 3).2.2.2.2.2.1 10 88 rfl
      (by decide) rfl,
    (dryRunCommon_selection (fun _ => .merge) _ 10).2.2.2.2.1 10 rfl (by decide),
    (dryRunCommon_selection (fun _ => .merge) _ 3).2.1 88 rfl,
    (dryRunCommon_selection (fun _ => .merge) adapterA 3).2.2.2.1 rfl,
    (dryRunCommon_selection (fun _ => .merge) adapterA 3).2.2.1 rfl,
    (dryRunCommon_selection (fun _ => .merge) adapterA 3).1⟩

/-- Hardfork selector fixture that is always before London (and before
the Merge). -/
def preLondonSelector : Nat → Hardfork := fun _ => .berlin

/-- Hardfork selector fixture that is always the Merge. -/
def mergeSelector : Nat → Hardfork := fun _ => .merge

/-- Block-header fixture for the C6 counterexample: pre-London block with
an explicit basefee of 7. -/
def headerB : BlockHeader :=
  { number := 5
    coinbase := 0
    timestamp := 0
    gasLimit := 1000
    gasUsed := 0
    difficulty := some 1
    mixHash := none
    baseFeePerGas := some 7 }

/-- Counterexample for C6: in `RethnetAdapter.dryRun` with
`forceBaseFeeZero = true` on a block whose hardfork is before London and
whose header carries `baseFeePerGas = 7`, the block environment handed to
the backend has basefee `0`, while the claim requires the original `7`
in that case (London being inactive). -/
theorem rethnet_baseFee_ignores_london_cex :
    hardforkGte (preLondonSelector 5) .london = false ∧
    headerB.baseFeePerGas = some 7 ∧
    RethnetAdapter.dryRunBlockEnv preLondonSelector headerB true
      = .ok { number := 5, coinbase := 0, timestamp := 0, gasLimit := 1000,
              basefee := some 0, difficulty := some 1, prevrandao := none } :=
  ⟨rfl, rfl, rfl⟩

/-- Claim C6 (amended): in `EthereumJSAdapter.dryRun` the substitution
rule holds as claimed — basefee `0` exactly when London is active for the
selected hardfork and the block has no basefee or `forceBaseFeeZero` is
set, the original basefee otherwise; in `RethnetAdapter.dryRun` the block
environment's basefee is `0` exactly when `forceBaseFeeZero` is set, and
otherwise the block's original, possibly absent, basefee — regardless of
the hardfork. -/
theorem dryRunBaseFee_rules (hf : Nat → Hardfork) (s : EJSAdapter)
    (blockContext : BlockHeader) (force : Bool) :
    (hardforkGte (hf blockContext.number) .london = true →
      (blockContext.baseFeePerGas = none ∨ force = true) →
      (s.dryRunEffectiveBlock hf blockContext force).baseFeePerGas = some 0) ∧
    (hardforkGte (hf blockContext.number) .london = false →
      (s.dryRunEffectiveBlock hf blockContext force).baseFeePerGas
        = blockContext.baseFeePerGas) ∧
    (blockContext.baseFeePerGas ≠ none → force = false →
      (s.dryRunEffectiveBlock hf blockContext force).baseFeePerGas
        = blockContext.baseFeePerGas) ∧
    (∀ env, RethnetAdapter.dryRunBlockEnv hf blockContext force = .ok env →
      env.basefee = if force then some 0 else blockContext.baseFeePerGas) := by
  refine ⟨?_, ?_, ?_, ?_⟩
  · intro hlon hsub
    rcases hsub with hnone | hforce
    · simp [EJSAdapter.dryRunEffectiveBlock, EJSAdapter.isEip1559Active, hlon, hnone]
    · simp [EJSAdapter.dryRunEffectiveBlock, EJSAdapter.isEip1559Active, hlon, hforce]
  · intro hlon
    simp [EJSAdapter.dryRunEffectiveBlock, EJSAdapter.isEip1559Active, hlon]
  · intro hsome hforce
    cases hb : blockContext.baseFeePerGas with
    | none => exact absurd hb hsome
    | some b =>
      simp [EJSAdapter.dryRunEffectiveBlock, EJSAdapter.isEip1559Active, hb, hforce]
  · intro env henv
    cases hpr : RethnetAdapter.getBlockPrevRandao hf blockContext.number
        blockContext.mixHash with
    | error e => simp [RethnetAdapter.dryRunBlockEnv, hpr] at henv
    | ok pr =>
      simp only [RethnetAdapter.dryRunBlockEnv, hpr] at henv
      cases henv
      rfl

/-- Witness for the amended C6 on each branch at concrete inputs. -/
theorem dryRunBaseFee_rules_witness :
    (EJSAdapter.dryRunEffectiveBlock mergeSelector adapterA headerB
        true).baseFeePerGas = some 0 ∧
    (EJSAdapter.dryRunEffectiveBlock preLondonSelector adapterA headerB
        true).baseFeePerGas = some 7 ∧
    (EJSAdapter.dryRunEffectiveBlock mergeSelector adapterA headerB
        false).baseFeePerGas = some 7 ∧
    (∀ env, RethnetAdapter.dryRunBlockEnv preLondonSelector headerB false = .ok env →
      env.basefee = some 7) :=
  ⟨(dryRunBaseFee_rules mergeSelector adapterA headerB true).1 rfl (Or.inr rfl),
    (dryRunBaseFee_rules preLondonSelector adapterA headerB true).2.1 rfl,
    (dryRunBaseFee_rules mergeSelector adapterA headerB false).2.2.1
      (by simp [headerB]) rfl,
    fun env henv =>
      (dryRunBaseFee_rules preLondonSelector adapterA headerB false).2.2.2
        env henv⟩

/-- Claim C7: at or after the Merge the prevRandao passed to the backend
equals the block's mixHash and the mapping raises when the mixHash is
absent; before the Merge the prevRandao is absent regardless of the
mixHash; and the block environment built by `dryRun` carries exactly the
mapping's result. -/
theorem prevRandao_rules (hf : Nat → Hardfork) (n : Nat) (mixHash : Option Nat) :
    (hardforkGte (hf n) .merge = true →
      (∀ h, mixHash = some h →
        RethnetAdapter.getBlockPrevRandao hf n mixHash = .ok (some h)) ∧
      (mixHash = none →
        RethnetAdapter.getBlockPrevRandao hf n mixHash = .error .mixHashRequired)) ∧
    (hardforkGte (hf n) .merge = false →
      RethnetAdapter.getBlockPrevRandao hf n mixHash = .ok none) ∧
    (∀ (blockContext : BlockHeader) (force : Bool) (env : RethnetBlockEnv),
      RethnetAdapter.dryRunBlockEnv hf blockContext force = .ok env →
      Except.ok env.prevrandao
        = RethnetAdapter.getBlockPrevRandao hf blockContext.number
            blockContext.mixHash) := by
  refine ⟨?_, ?_, ?_⟩
  · intro hpost
    constructor
    · intro h hm
      simp [RethnetAdapter.getBlockPrevRandao, hpost, hm]
    · intro hm
      simp [RethnetAdapter.getBlockPrevRandao, hpost, hm]
  · intro hpre
    simp [RethnetAdapter.getBlockPrevRandao, hpre]
  · intro blockContext force env henv
    cases hpr : RethnetAdapter.getBlockPrevRandao hf blockContext.number
        blockContext.mixHash with
    | error e => simp [RethnetAdapter.dryRunBlockEnv, hpr] at henv
    | ok pr =>
      simp only [RethnetAdapter.dryRunBlockEnv, hpr] at henv
      cases henv
      rfl

/-- Witness for C7 at concrete post-Merge and pre-Merge selectors. -/
theorem prevRandao_rules_witness :
    RethnetAdapter.getBlockPrevRandao mergeSelector 1 (some 17) = .ok (some 17) ∧
    RethnetAdapter.getBlockPrevRandao mergeSelector 1 none
      = .error .mixHashRequired ∧
    RethnetAdapter.getBlockPrevRandao preLondonSelector 1 (some 17) = .ok none :=
  ⟨((prevRandao_rules mergeSelector 1 (some 17)).1 rfl).1 17 rfl,
    ((prevRandao_rules mergeSelector 1 none).1 rfl).2 rfl,
    (prevRandao_rules preLondonSelector 1 (some 17)).2.1 rfl⟩

theorem WorldState.getAccount_putAccount (w : WorldState) (b a : Addr)
    (acct : Account) :
    (w.putAccount b acct).getAccount a = if b = a then acct else w.getAccount a := by
  by_cases h : b = a
  · subst h
    simp [WorldState.putAccount, WorldState.getAccount]
  · have hb : (b == a) = false := by simp [h]
    simp [WorldState.putAccount, WorldState.getAccount, List.find?, hb, h]

theorem applyRewards_balance (rewards : List (Addr × Nat)) :
    ∀ (w : WorldState) (a : Addr),
      ((applyRewards w rewards).getAccount a).balance
        = (w.getAccount a).balance + sumRewardsTo a rewards := by
  induction rewards with
  | nil => intro w a; simp [applyRewards, sumRewardsTo]
  | cons p rest ih =>
    intro w a
    obtain ⟨b, reward⟩ := p
    show ((applyRewards
        (w.putAccount b
          { w.getAccount b with balance := (w.getAccount b).balance + reward })
        rest).getAccount a).balance
      = (w.getAccount a).balance
          + ((if b == a then reward else 0) + sumRewardsTo a rest)
    rw [ih]
    rw [WorldState.getAccount_putAccount]
    by_cases h : b = a
    · subst h
      simp only [beq_self_eq_true, if_pos, if_true]
      omega
    · simp only [h, if_false, beq_iff_eq, if_neg h]
      omega

/-- Claim C8: `addBlockRewards` increases the balance of each listed
address by the sum of its rewards, in both adapters, and credits land
even on addresses with no account yet (the account is created on credit,
starting from a zero balance); the credited balance is read back from the
committed state. -/
theorem addBlockRewards_credits (s : EJSAdapter) (rs : RethnetState)
    (rewards : List (Addr × Nat)) (address : Addr) :
    (((s.addBlockRewards rewards).world.getAccount address).balance
      = (s.world.getAccount address).balance + sumRewardsTo address rewards) ∧
    (((RethnetAdapter.addBlockRewards rs rewards).world.getAccount address).balance
      = (rs.world.getAccount address).balance + sumRewardsTo address rewards) ∧
    (∀ w : WorldState, w.accounts.find? (fun p => p.1 == address) = none →
      ((applyRewards w rewards).getAccount address).balance
        = sumRewardsTo address rewards) := by
  refine ⟨applyRewards_balance rewards s.world address,
    applyRewards_balance rewards rs.world address, ?_⟩
  intro w hnone
  rw [applyRewards_balance rewards w address]
  simp [WorldState.getAccount, hnone, Account.empty]

/-- Witness for C8: rewards credited to an existing account and to an
address with no account. -/
theorem addBlockRewards_credits_witness :
    ((EJSAdapter.addBlockRewards adapterA
        [(9, 5), (1, 2), (9, 3)]).world.getAccount 9).balance
      = (adapterA.world.getAccount 9).balance + sumRewardsTo 9 [(9, 5), (1, 2), (9, 3)] ∧
    ((applyRewards wsA [(9, 5), (1, 2), (9, 3)]).getAccount 9).balance
      = sumRewardsTo 9 [(9, 5), (1, 2), (9, 3)] :=
  ⟨(addBlockRewards_credits adapterA { world := wsA, checkpoints := [] }
      [(9, 5), (1, 2), (9, 3)] 9).1,
    (addBlockRewards_credits adapterA { world := wsA, checkpoints := [] }
      [(9, 5), (1, 2), (9, 3)] 9).2.2 wsA (by decide)⟩

/-- Claim C9: `RethnetAdapter.isWarmedAddress` returns `true` for every
address and every adapter state, independent of the address, of any
access list, and of any prior operations (it never reads either
argument). -/
theorem isWarmedAddress_always_true (rs rs2 : RethnetState) (a a2 : Addr) :
    RethnetAdapter.isWarmedAddress rs a = true ∧
    RethnetAdapter.isWarmedAddress rs a = RethnetAdapter.isWarmedAddress rs2 a2 :=
  ⟨rfl, rfl⟩
